import Mathlib

/-!
Verification of a toroidal Game of Life engine.

The data model and every operation below are translated from the Rust
source (`src/lib.rs`): `Position` holds signed integer coordinates,
`World` holds the grid dimensions (stored as `i64`, modelled as `Int`)
and the sequence of currently live cells (a `Vec<Position>`, modelled as
`List Position`).  `rem_euclid` on nonzero divisors is `Int.emod`.
The `HashSet` used inside `births` is modelled as a deduplicated list
built in insertion order; every claim about `births` is at the level of
membership, which is independent of iteration order.
-/

/-- Cell coordinate: `pub struct Position { pub x: i64, pub y: i64 }`. -/
structure Position where
  x : Int
  y : Int
deriving DecidableEq, Repr

/-- `Position::new(x, y)`. -/
def Position.new (x y : Int) : Position := ⟨x, y⟩

/-- World state: `width`/`height` are `i64` fields, `alive` is the
`Vec<Position>` of currently live cells, in order. -/
structure World where
  width : Int
  height : Int
  alive : List Position
deriving DecidableEq, Repr

/-- `World::new(width: u32, height: u32, alive: Vec<Position>)`: the two
dimensions are converted `u32 → i64`; the live vector is stored verbatim. -/
def World.new (width height : Nat) (alive : List Position) : World :=
  ⟨(width : Int), (height : Int), alive⟩

/-- `is_alive`: `self.alive.contains(&position)`. -/
def World.is_alive (w : World) (p : Position) : Bool :=
  w.alive.contains p

/-- `is_empty`: `!self.is_alive(position)`. -/
def World.is_empty (w : World) (p : Position) : Bool :=
  !(w.is_alive p)

/-- `wrap`: per-axis `(c - 1).rem_euclid(len) + 1`.  `Int.emod` agrees
with `rem_euclid` whenever the divisor is nonzero. -/
def World.wrap (w : World) (p : Position) : Position :=
  Position.new ((p.x - 1) % w.width + 1) ((p.y - 1) % w.height + 1)

/-- `rem_euclid` panics on a zero divisor; `wrap_checked` makes that
fallibility explicit: `none` exactly when the Rust `wrap` would panic,
otherwise `some` of the value `wrap` computes. -/
def World.wrap_checked (w : World) (p : Position) : Option Position :=
  if w.width = 0 ∨ w.height = 0 then none else some (w.wrap p)

/-- `neighbors`: the 8 Moore offsets in source order, each wrapped. -/
def World.neighbors (w : World) (p : Position) : List Position :=
  [Position.new (p.x - 1) (p.y - 1),
   Position.new p.x (p.y - 1),
   Position.new (p.x + 1) (p.y - 1),
   Position.new (p.x - 1) p.y,
   Position.new (p.x + 1) p.y,
   Position.new (p.x - 1) (p.y + 1),
   Position.new p.x (p.y + 1),
   Position.new (p.x + 1) (p.y + 1)].map w.wrap

/-- `live_neighbors`: neighbors filtered by `is_alive`, counted. -/
def World.live_neighbors (w : World) (p : Position) : Nat :=
  (w.neighbors p).countP (fun q => w.is_alive q)

/-- `survivors`: keep the live cells whose count is 2 or 3, in order. -/
def World.survivors (w : World) : List Position :=
  w.alive.filter (fun p => w.live_neighbors p == 2 || w.live_neighbors p == 3)

/-- One `HashSet::insert` of an empty neighbor: add `n` when it is empty
and not already collected. -/
def World.insert_empty_neighbor (w : World) (acc : List Position) (n : Position) :
    List Position :=
  if w.is_empty n then (if n ∈ acc then acc else acc ++ [n]) else acc

/-- Inner loop of `births`: insert every empty neighbor of `p`. -/
def World.collect_empty_neighbors (w : World) (acc : List Position) (p : Position) :
    List Position :=
  (w.neighbors p).foldl w.insert_empty_neighbor acc

/-- The `potential_births` set of `births`: all distinct empty neighbors
of live cells, as a deduplicated list. -/
def World.potential_births (w : World) : List Position :=
  w.alive.foldl w.collect_empty_neighbors []

/-- `births`: the potential births whose live-neighbor count is 3. -/
def World.births (w : World) : List Position :=
  w.potential_births.filter (fun p => w.live_neighbors p == 3)

/-- `next_generation`: survivors extended with births, same dimensions;
the receiver is untouched (the embedding is purely functional, as is the
Rust method, which takes `&self`). -/
def World.next_generation (w : World) : World :=
  ⟨w.width, w.height, w.survivors ++ w.births⟩

/-- `alive_positions`: clone of the live vector. -/
def World.alive_positions (w : World) : List Position :=
  w.alive

/-- `tick`: replace the live vector with the one `next_generation`
computes; dimensions untouched. -/
def World.tick (w : World) : World :=
  { w with alive := w.next_generation.alive }

/-- The hard-coded glider cells of `glider_pattern`. -/
def gliderCells : List Position :=
  [Position.new 4 2, Position.new 2 3, Position.new 4 3,
   Position.new 3 4, Position.new 4 4]

/-- `glider_pattern`: panics (modelled as `none`) when either dimension
is below 5, otherwise builds the world with the glider cells. -/
def glider_pattern (width height : Nat) : Option World :=
  if width < 5 ∨ height < 5 then none
  else some (World.new width height gliderCells)

/-- The hard-coded pulsar cells of `pulsar_pattern`. -/
def pulsarCells : List Position :=
  [Position.new 7 4, Position.new 8 4, Position.new 9 4,
   Position.new 13 4, Position.new 14 4, Position.new 15 4,
   Position.new 5 6, Position.new 10 6, Position.new 12 6, Position.new 17 6,
   Position.new 5 7, Position.new 10 7, Position.new 12 7, Position.new 17 7,
   Position.new 5 8, Position.new 10 8, Position.new 12 8, Position.new 17 8,
   Position.new 7 10, Position.new 8 10, Position.new 9 10,
   Position.new 13 10, Position.new 14 10, Position.new 15 10]

/-- `pulsar_pattern`: panics (modelled as `none`) when either dimension
is below 15, otherwise builds the world with the pulsar cells. -/
def pulsar_pattern (width height : Nat) : Option World :=
  if width < 15 ∨ height < 15 then none
  else some (World.new width height pulsarCells)

/-- A 2×2 block of adjacent live cells, the still-life test pattern of the
specification: `{(2,2),(2,3),(3,2),(3,3)}`. -/
def blockCells : List Position :=
  [Position.new 2 2, Position.new 2 3, Position.new 3 2, Position.new 3 3]

/-! ### Basic membership lemmas -/

lemma is_alive_iff (w : World) (p : Position) :
    w.is_alive p = true ↔ p ∈ w.alive := by
  simp [World.is_alive]

lemma is_empty_iff (w : World) (p : Position) :
    w.is_empty p = true ↔ p ∉ w.alive := by
  simp [World.is_empty, World.is_alive]

/-! ### Membership and dedup facts about the births accumulator -/

lemma mem_insert_empty_neighbor (w : World) (acc : List Position) (n q : Position) :
    q ∈ w.insert_empty_neighbor acc n ↔ q ∈ acc ∨ (q = n ∧ w.is_empty n = true) := by
  unfold World.insert_empty_neighbor
  by_cases he : w.is_empty n = true
  · by_cases hm : n ∈ acc
    · simp only [he, if_true, hm]
      constructor
      · exact Or.inl
      · rintro (h | ⟨rfl, _⟩)
        · exact h
        · exact hm
    · simp only [he, if_true, hm, if_false, List.mem_append, List.mem_singleton]
      tauto
  · simp only [he, if_false]
    tauto

lemma nodup_insert_empty_neighbor (w : World) (acc : List Position) (n : Position)
    (h : acc.Nodup) : (w.insert_empty_neighbor acc n).Nodup := by
  unfold World.insert_empty_neighbor
  by_cases he : w.is_empty n = true
  · by_cases hm : n ∈ acc
    · simpa [he, hm]
    · simp only [he, if_true, hm, if_false]
      simpa [List.nodup_append, hm] using h
  · simpa [he]

lemma mem_collect_empty_neighbors (w : World) (p : Position) (acc : List Position)
    (q : Position) :
    q ∈ w.collect_empty_neighbors acc p ↔
      q ∈ acc ∨ (q ∈ w.neighbors p ∧ w.is_empty q = true) := by
  unfold World.collect_empty_neighbors
  generalize w.neighbors p = ns
  induction ns generalizing acc with
  | nil => simp
  | cons n ns ih =>
    rw [List.foldl_cons, ih, mem_insert_empty_neighbor]
    constructor
    · rintro ((h | ⟨rfl, he⟩) | ⟨hn, he⟩)
      · exact Or.inl h
      · exact Or.inr ⟨List.mem_cons_self _ _, he⟩
      · exact Or.inr ⟨List.mem_cons_of_mem _ hn, he⟩
    · rintro (h | ⟨hn, he⟩)
      · exact Or.inl (Or.inl h)
      · rcases List.mem_cons.mp hn with rfl | hn
        · exact Or.inl (Or.inr ⟨rfl, he⟩)
        · exact Or.inr ⟨hn, he⟩

lemma nodup_collect_empty_neighbors (w : World) (p : Position) (acc : List Position)
    (h : acc.Nodup) : (w.collect_empty_neighbors acc p).Nodup := by
  unfold World.collect_empty_neighbors
  generalize w.neighbors p = ns
  induction ns generalizing acc with
  | nil => simpa
  | cons n ns ih => exact ih _ (nodup_insert_empty_neighbor w acc n h)

lemma mem_potential_births (w : World) (q : Position) :
    q ∈ w.potential_births ↔
      (∃ p ∈ w.alive, q ∈ w.neighbors p) ∧ w.is_empty q = true := by
  unfold World.potential_births
  have main : ∀ (ps acc : List Position),
      q ∈ ps.foldl w.collect_empty_neighbors acc ↔
        q ∈ acc ∨ ((∃ p ∈ ps, q ∈ w.neighbors p) ∧ w.is_empty q = true) := by
    intro ps
    induction ps with
    | nil => simp
    | cons p ps ih =>
      intro acc
      rw [List.foldl_cons, ih, mem_collect_empty_neighbors]
      constructor
      · rintro ((h | ⟨hn, he⟩) | ⟨⟨r, hr, hn⟩, he⟩)
        · exact Or.inl h
        · exact Or.inr ⟨⟨p, List.mem_cons_self _ _, hn⟩, he⟩
        · exact Or.inr ⟨⟨r, List.mem_cons_of_mem _ hr, hn⟩, he⟩
      · rintro (h | ⟨⟨r, hr, hn⟩, he⟩)
        · exact Or.inl (Or.inl h)
        · rcases List.mem_cons.mp hr with rfl | hr
          · exact Or.inl (Or.inr ⟨hn, he⟩)
          · exact Or.inr ⟨⟨r, hr, hn⟩, he⟩
  simpa using main w.alive []

lemma nodup_potential_births (w : World) : w.potential_births.Nodup := by
  unfold World.potential_births
  have main : ∀ (ps acc : List Position), acc.Nodup →
      (ps.foldl w.collect_empty_neighbors acc).Nodup := by
    intro ps
    induction ps with
    | nil => intro acc h; simpa
    | cons p ps ih =>
      intro acc h
      exact ih _ (nodup_collect_empty_neighbors w p acc h)
  exact main w.alive [] List.nodup_nil

/-! ### Membership in survivors, births and the next generation -/

lemma mem_survivors (w : World) (q : Position) :
    q ∈ w.survivors ↔
      q ∈ w.alive ∧ (w.live_neighbors q = 2 ∨ w.live_neighbors q = 3) := by
  simp [World.survivors, List.mem_filter]

lemma mem_births (w : World) (q : Position) :
    q ∈ w.births ↔
      (∃ p ∈ w.alive, q ∈ w.neighbors p) ∧ q ∉ w.alive ∧ w.live_neighbors q = 3 := by
  rw [World.births, List.mem_filter, mem_potential_births, is_empty_iff]
  simp
  tauto

lemma next_generation_alive (w : World) :
    w.next_generation.alive = w.survivors ++ w.births := rfl

lemma mem_next_generation (w : World) (q : Position) :
    q ∈ w.next_generation.alive ↔ q ∈ w.survivors ∨ q ∈ w.births := by
  rw [next_generation_alive, List.mem_append]

lemma births_disjoint_alive (w : World) (q : Position) (hb : q ∈ w.births) :
    q ∉ w.alive :=
  ((mem_births w q).mp hb).2.1

lemma nodup_next_generation (w : World) (h : w.alive.Nodup) :
    w.next_generation.alive.Nodup := by
  rw [next_generation_alive]
  refine (h.filter _).append ((nodup_potential_births w).filter _) ?_
  intro a ha hb
  exact births_disjoint_alive w a hb (List.mem_filter.mp ha).1

lemma tick_alive (w : World) : w.tick.alive = w.next_generation.alive := rfl

/-! ### Claim theorems -/

/-- Claim C1: for a world with positive dimensions, a currently live cell is
in the next generation's live set iff its live-neighbor count over the 8
wrapped Moore neighbors is exactly 2 or 3, and the survivors pass is the
only way a live cell enters (or is removed from) the next generation. -/
theorem survivor_rule_next_generation (w : World) (p : Position)
    (hw : 1 ≤ w.width) (hh : 1 ≤ w.height) (hp : p ∈ w.alive) :
    (p ∈ w.next_generation.alive ↔
      (w.live_neighbors p = 2 ∨ w.live_neighbors p = 3))
    ∧ (p ∈ w.next_generation.alive ↔ p ∈ w.survivors) := by
  have hnb : p ∉ w.births := by
    rw [mem_births]
    rintro ⟨_, hna, _⟩
    exact hna hp
  constructor
  · rw [mem_next_generation]
    constructor
    · rintro (hs | hb)
      · exact (((mem_survivors w p).mp hs)).2
      · exact absurd hb hnb
    · intro hc
      exact Or.inl ((mem_survivors w p).mpr ⟨hp, hc⟩)
  · rw [mem_next_generation]
    constructor
    · rintro (hs | hb)
      · exact hs
      · exact absurd hb hnb
    · exact Or.inl

/-- Witness for C1: in the 3-cell example world, the live cell (1,1) has two
live neighbors and is present in the next generation. -/
theorem survivor_rule_next_generation_witness :
    Position.new 1 1 ∈ (World.new 5 5 [Position.new 1 1, Position.new 1 2,
      Position.new 2 1]).next_generation.alive :=
  ((survivor_rule_next_generation _ _ (by decide) (by decide) (by decide)).1).mpr
    (Or.inl (by decide))

/-- Counterexample to C2 as stated: the constructor keeps duplicates, and a
duplicated live cell that survives appears twice in the next generation, so
the resulting live sequence is not always deduplicated. -/
theorem births_dedup_counterexample :
    ¬ ((World.new 5 5 [Position.new 1 1, Position.new 1 1, Position.new 1 2,
        Position.new 2 1]).next_generation.alive.Nodup) := by decide

/-- Claim C2 (amended): an empty cell is in the next generation iff it is a
wrapped Moore neighbor of a live cell and has exactly 3 live neighbors; the
candidate set is deduplicated; the result is the union of survivors and
births, and it is duplicate-free whenever the current live sequence is. -/
theorem birth_rule_next_generation (w : World)
    (hw : 1 ≤ w.width) (hh : 1 ≤ w.height) :
    (∀ p, p ∉ w.alive →
      (p ∈ w.next_generation.alive ↔
        ((∃ q ∈ w.alive, p ∈ w.neighbors q) ∧ w.live_neighbors p = 3)))
    ∧ w.potential_births.Nodup
    ∧ (∀ p, p ∈ w.next_generation.alive ↔ (p ∈ w.survivors ∨ p ∈ w.births))
    ∧ (w.alive.Nodup → w.next_generation.alive.Nodup) := by
  refine ⟨?_, nodup_potential_births w, fun p => mem_next_generation w p,
    nodup_next_generation w⟩
  intro p hp
  rw [mem_next_generation]
  constructor
  · rintro (hs | hb)
    · exact absurd ((mem_survivors w p).mp hs).1 hp
    · obtain ⟨hex, _, hc⟩ := (mem_births w p).mp hb
      exact ⟨hex, hc⟩
  · rintro ⟨hex, hc⟩
    exact Or.inr ((mem_births w p).mpr ⟨hex, hp, hc⟩)

/-- Witness for C2: in the 3-cell example world, the empty cell (2,2) has
exactly 3 live neighbors and is born. -/
theorem birth_rule_next_generation_witness :
    Position.new 2 2 ∈ (World.new 5 5 [Position.new 1 1, Position.new 1 2,
      Position.new 2 1]).next_generation.alive :=
  ((birth_rule_next_generation _ (by decide) (by decide)).1 (Position.new 2 2)
      (by decide)).mpr
    ⟨⟨Position.new 1 1, by decide, by decide⟩, by decide⟩

/-- Claim C3: `tick` replaces the live set with exactly what
`next_generation` computes on the pre-tick state, and both preserve the
dimensions; `next_generation` does not mutate its argument (the embedding is
purely functional, as is the Rust method, which takes `&self`). -/
theorem tick_eq_next_generation (w : World) :
    w.tick = w.next_generation
    ∧ w.tick.alive = w.next_generation.alive
    ∧ w.tick.width = w.width ∧ w.tick.height = w.height
    ∧ w.next_generation.width = w.width ∧ w.next_generation.height = w.height :=
  ⟨rfl, rfl, rfl, rfl, rfl, rfl⟩

/-- Counterexample to C5 as stated: `World::new` stores the initial sequence
verbatim, so with a duplicated initial coordinate and zero ticks,
`alive_positions` contains a duplicate. -/
theorem alive_positions_dup_counterexample :
    ¬ ((World.new 5 5 [Position.new 1 1,
        Position.new 1 1]).alive_positions.Nodup) := by decide

/-- Claim C5 (amended): for every world built from a duplicate-free initial
live sequence, after any number of ticks `alive_positions` contains no
duplicate coordinates. -/
theorem ticks_preserve_nodup (width height : Nat) (init : List Position)
    (h : init.Nodup) (n : Nat) :
    ((World.tick)^[n] (World.new width height init)).alive_positions.Nodup := by
  induction n with
  | zero => simpa [World.alive_positions, World.new] using h
  | succ k ih =>
    rw [Function.iterate_succ_apply']
    exact nodup_next_generation _ ih

/-- Witness for C5: two ticks from a duplicate-free 3-cell world leave a
duplicate-free live sequence. -/
theorem ticks_preserve_nodup_witness :
    ((World.tick)^[2] (World.new 5 5 [Position.new 1 1, Position.new 1 2,
      Position.new 2 1])).alive_positions.Nodup :=
  ticks_preserve_nodup 5 5 _ (by decide) 2

/-- Claim C6: for positive dimensions the operations are total — the only
panic source, `rem_euclid` on a zero axis length inside `wrap`, cannot fire
(`wrap_checked` always succeeds and returns what `wrap` computes), and every
live-neighbor count is at most 8 (being a count over the 8-element Moore
neighborhood); `is_alive`, `is_empty`, `tick` and `next_generation` are
total by construction on top of these. -/
theorem ops_total_and_bounded (w : World) (hw : 1 ≤ w.width) (hh : 1 ≤ w.height) :
    (∀ p, w.wrap_checked p = some (w.wrap p)) ∧ (∀ p, w.live_neighbors p ≤ 8) := by
  constructor
  · intro p
    rw [World.wrap_checked, if_neg]
    push_neg
    constructor <;> omega
  · intro p
    have h8 : (w.neighbors p).length = 8 := by simp [World.neighbors]
    have hcp := List.countP_le_length (p := fun q => w.is_alive q)
      (l := w.neighbors p)
    rw [World.live_neighbors]
    omega

/-- Witness for C6: instantiated on an empty 5×5 world at (1,1). -/
theorem ops_total_and_bounded_witness :
    (World.new 5 5 []).live_neighbors (Position.new 1 1) ≤ 8 :=
  (ops_total_and_bounded _ (by decide) (by decide)).2 (Position.new 1 1)

/-- Claim C7: `glider_pattern` fails fatally (modelled as `none`) iff a
dimension is below 5 and otherwise returns the world with the fixed glider
cells; `pulsar_pattern` fails iff a dimension is below 15 and otherwise
returns the world with the fixed pulsar cells; in particular
`glider_pattern 4 5` and `pulsar_pattern 10 20` both fail. -/
theorem pattern_guards (width height : Nat) :
    (glider_pattern width height = none ↔ (width < 5 ∨ height < 5))
    ∧ (pulsar_pattern width height = none ↔ (width < 15 ∨ height < 15))
    ∧ (¬(width < 5 ∨ height < 5) →
        glider_pattern width height = some (World.new width height gliderCells))
    ∧ (¬(width < 15 ∨ height < 15) →
        pulsar_pattern width height = some (World.new width height pulsarCells))
    ∧ glider_pattern 4 5 = none ∧ pulsar_pattern 10 20 = none := by
  refine ⟨?_, ?_, ?_, ?_, by decide, by decide⟩
  · by_cases h : width < 5 ∨ height < 5 <;> simp [glider_pattern, h]
  · by_cases h : width < 15 ∨ height < 15 <;> simp [pulsar_pattern, h]
  · by_cases h : width < 5 ∨ height < 5 <;> simp [glider_pattern, h]
  · by_cases h : width < 15 ∨ height < 15 <;> simp [pulsar_pattern, h]

/-- Witness for C7: a 20×20 grid is large enough for the glider. -/
theorem pattern_guards_witness :
    glider_pattern 20 20 = some (World.new 20 20 gliderCells) :=
  (pattern_guards 20 20).2.2.1 (by decide)

lemma wrap_bounds_one (L x : Int) (hL : 1 ≤ L) :
    1 ≤ (x - 1) % L + 1 ∧ (x - 1) % L + 1 ≤ L := by
  have h0 : 0 ≤ (x - 1) % L := Int.emod_nonneg _ (by omega)
  have h1 : (x - 1) % L < L := Int.emod_lt_of_pos _ (by omega)
  omega

lemma wrap_congr_one (L x : Int) : ((x - 1) % L + 1 - x) % L = 0 := by
  have h : (x - 1) % L + 1 - x = L * (-((x - 1) / L)) := by
    rw [Int.emod_def]
    ring
  rw [h]
  exact Int.mul_emod_right _ _

lemma wrap_unique_one (L x z : Int) (hL : 1 ≤ L) (h1 : 1 ≤ z) (h2 : z ≤ L)
    (hc : (z - x) % L = 0) : z = (x - 1) % L + 1 := by
  have he : (z - 1) % L = (x - 1) % L := by
    rw [Int.emod_eq_emod_iff_emod_sub_eq_zero]
    have h : z - 1 - (x - 1) = z - x := by ring
    rw [h, hc]
  have hz : (z - 1) % L = z - 1 := Int.emod_eq_of_lt (by omega) (by omega)
  omega

/-- Claim C4: for positive dimensions, `wrap` returns the unique coordinate
of `[1, width] × [1, height]` congruent to the input per axis modulo the
axis length, and is the identity on coordinates already in range. -/
theorem wrap_canonical (w : World) (p : Position)
    (hw : 1 ≤ w.width) (hh : 1 ≤ w.height) :
    (1 ≤ (w.wrap p).x ∧ (w.wrap p).x ≤ w.width
      ∧ 1 ≤ (w.wrap p).y ∧ (w.wrap p).y ≤ w.height)
    ∧ ((w.wrap p).x - p.x) % w.width = 0
    ∧ ((w.wrap p).y - p.y) % w.height = 0
    ∧ (∀ q : Position,
        1 ≤ q.x → q.x ≤ w.width → 1 ≤ q.y → q.y ≤ w.height →
        (q.x - p.x) % w.width = 0 → (q.y - p.y) % w.height = 0 → q = w.wrap p)
    ∧ (1 ≤ p.x → p.x ≤ w.width → 1 ≤ p.y → p.y ≤ w.height → w.wrap p = p) := by
  have bx := wrap_bounds_one w.width p.x hw
  have hy := wrap_bounds_one w.height p.y hh
  refine ⟨⟨bx.1, bx.2, hy.1, hy.2⟩, wrap_congr_one _ _, wrap_congr_one _ _, ?_, ?_⟩
  · intro q h1 h2 h3 h4 hcx hcy
    have ex := wrap_unique_one w.width p.x q.x hw h1 h2 hcx
    have ey := wrap_unique_one w.height p.y q.y hh h3 h4 hcy
    cases q
    simp only [World.wrap, Position.new, Position.mk.injEq]
    exact ⟨ex, ey⟩
  · intro h1 h2 h3 h4
    have ex := wrap_unique_one w.width p.x p.x hw h1 h2 (by simp)
    have ey := wrap_unique_one w.height p.y p.y hh h3 h4 (by simp)
    cases p
    simp only [World.wrap, Position.new, Position.mk.injEq] at *
    exact ⟨ex.symm, ey.symm⟩

/-- Witness for C4: on a 5×5 grid, the in-range coordinate (3,3) is
returned unchanged. -/
theorem wrap_canonical_witness :
    (World.new 5 5 []).wrap (Position.new 3 3) = Position.new 3 3 :=
  (wrap_canonical (World.new 5 5 []) (Position.new 3 3) (by decide)
      (by decide)).2.2.2.2 (by decide) (by decide) (by decide) (by decide)

/-- Claim C10: the constructor stores the initial sequence verbatim — no
wrapping, no deduplication, no validation — and `alive_positions` right
after construction returns exactly that sequence. -/
theorem new_stores_verbatim (width height : Nat) (init : List Position) :
    (World.new width height init).alive_positions = init
    ∧ (World.new width height init).width = (width : Int)
    ∧ (World.new width height init).height = (height : Int) :=
  ⟨rfl, rfl, rfl⟩

/-- The specification's concrete wrap tests on a 5×5 grid. -/
lemma wrap_spec_tests :
    (World.new 5 5 []).wrap (Position.new 0 3) = Position.new 5 3
    ∧ (World.new 5 5 []).wrap (Position.new 6 3) = Position.new 1 3
    ∧ (World.new 5 5 []).wrap (Position.new 3 0) = Position.new 3 5
    ∧ (World.new 5 5 []).wrap (Position.new 3 6) = Position.new 3 1 := by
  refine ⟨?_, ?_, ?_, ?_⟩ <;> decide

/-! ### Evaluation of `wrap` on explicit coordinates -/

lemma emod_neg_one (L : Int) (hL : 1 ≤ L) : (-1 : Int) % L = L - 1 := by
  have h : (-1 : Int) = (L - 1) + L * (-1) := by ring
  rw [h, Int.add_mul_emod_self_left]
  exact Int.emod_eq_of_lt (by omega) (by omega)

lemma wrap_id_ab (w : World) (a b : Int) (h1 : 1 ≤ a) (h2 : a ≤ w.width)
    (h3 : 1 ≤ b) (h4 : b ≤ w.height) :
    w.wrap (Position.new a b) = Position.new a b := by
  simp only [World.wrap, Position.new, Position.mk.injEq]
  constructor
  · have h : (a - 1) % w.width = a - 1 := Int.emod_eq_of_lt (by omega) (by omega)
    omega
  · have h : (b - 1) % w.height = b - 1 := Int.emod_eq_of_lt (by omega) (by omega)
    omega

lemma wrap_x0 (w : World) (b : Int) (hw : 1 ≤ w.width) (h3 : 1 ≤ b)
    (h4 : b ≤ w.height) :
    w.wrap (Position.new 0 b) = Position.new w.width b := by
  simp only [World.wrap, Position.new, Position.mk.injEq]
  constructor
  · have h : ((0 : Int) - 1) % w.width = w.width - 1 := by
      norm_num
      exact emod_neg_one w.width hw
    omega
  · have h : (b - 1) % w.height = b - 1 := Int.emod_eq_of_lt (by omega) (by omega)
    omega

lemma wrap_y0 (w : World) (a : Int) (hh : 1 ≤ w.height) (h1 : 1 ≤ a)
    (h2 : a ≤ w.width) :
    w.wrap (Position.new a 0) = Position.new a w.height := by
  simp only [World.wrap, Position.new, Position.mk.injEq]
  constructor
  · have h : (a - 1) % w.width = a - 1 := Int.emod_eq_of_lt (by omega) (by omega)
    omega
  · have h : ((0 : Int) - 1) % w.height = w.height - 1 := by
      norm_num
      exact emod_neg_one w.height hh
    omega

lemma wrap_00 (w : World) (hw : 1 ≤ w.width) (hh : 1 ≤ w.height) :
    w.wrap (Position.new 0 0) = Position.new w.width w.height := by
  simp only [World.wrap, Position.new, Position.mk.injEq]
  constructor
  · have h : ((0 : Int) - 1) % w.width = w.width - 1 := by
      norm_num
      exact emod_neg_one w.width hw
    omega
  · have h : ((0 : Int) - 1) % w.height = w.height - 1 := by
      norm_num
      exact emod_neg_one w.height hh
    omega

lemma block_alive_iff (W H : Int) (a b : Int) :
    (World.mk W H blockCells).is_alive (Position.new a b) = true ↔
      ((a = 2 ∨ a = 3) ∧ (b = 2 ∨ b = 3)) := by
  rw [is_alive_iff]
  simp only [blockCells, Position.new, List.mem_cons, List.not_mem_nil,
    Position.mk.injEq, or_false]
  constructor
  · rintro (⟨rfl, rfl⟩ | ⟨rfl, rfl⟩ | ⟨rfl, rfl⟩ | ⟨rfl, rfl⟩) <;> norm_num
  · rintro ⟨(rfl | rfl), (rfl | rfl)⟩ <;> norm_num

lemma block_not_alive (W H : Int) (a b : Int)
    (h : ¬((a = 2 ∨ a = 3) ∧ (b = 2 ∨ b = 3))) :
    (World.mk W H blockCells).is_alive (Position.new a b) = false := by
  cases hb : (World.mk W H blockCells).is_alive (Position.new a b)
  · rfl
  · exact absurd ((block_alive_iff W H a b).mp hb) h

lemma Position.new_x (a b : Int) : (Position.new a b).x = a := rfl

lemma Position.new_y (a b : Int) : (Position.new a b).y = b := rfl

lemma block_next_generation (W H : Int) (hw : 5 ≤ W) (hh : 5 ≤ H) :
    (World.mk W H blockCells).next_generation = World.mk W H blockCells := by
  have hW' : ∀ a : Int, a ≤ 5 → a ≤ (World.mk W H blockCells).width :=
    fun a ha => le_trans ha hw
  have hH' : ∀ b : Int, b ≤ 5 → b ≤ (World.mk W H blockCells).height :=
    fun b hb => le_trans hb hh
  have h1W : (1 : Int) ≤ (World.mk W H blockCells).width := le_trans (by norm_num) hw
  have h1H : (1 : Int) ≤ (World.mk W H blockCells).height := le_trans (by norm_num) hh
  have ef : ∀ a b : Int, 1 ≤ a → a ≤ 5 → 1 ≤ b → b ≤ 5 →
      ¬((a = 2 ∨ a = 3) ∧ (b = 2 ∨ b = 3)) →
      (World.mk W H blockCells).is_alive
        ((World.mk W H blockCells).wrap (Position.new a b)) = false := by
    intro a b h1 h2 h3 h4 h5
    rw [wrap_id_ab _ a b h1 (hW' a h2) h3 (hH' b h4)]
    exact block_not_alive W H a b h5
  have et : ∀ a b : Int, (a = 2 ∨ a = 3) → (b = 2 ∨ b = 3) →
      (World.mk W H blockCells).is_alive
        ((World.mk W H blockCells).wrap (Position.new a b)) = true := by
    intro a b h1 h2
    rw [wrap_id_ab _ a b (by omega) (hW' a (by omega)) (by omega) (hH' b (by omega))]
    exact (block_alive_iff W H a b).mpr ⟨h1, h2⟩
  have e0b : ∀ b : Int, 1 ≤ b → b ≤ 5 →
      (World.mk W H blockCells).is_alive
        ((World.mk W H blockCells).wrap (Position.new 0 b)) = false := by
    intro b h3 h4
    rw [wrap_x0 _ b h1W h3 (hH' b h4)]
    exact block_not_alive W H W b (by omega)
  have ea0 : ∀ a : Int, 1 ≤ a → a ≤ 5 →
      (World.mk W H blockCells).is_alive
        ((World.mk W H blockCells).wrap (Position.new a 0)) = false := by
    intro a h1 h2
    rw [wrap_y0 _ a h1H h1 (hW' a h2)]
    exact block_not_alive W H a H (by omega)
  have f00 : (World.mk W H blockCells).is_alive
      ((World.mk W H blockCells).wrap (Position.new 0 0)) = false := by
    rw [wrap_00 _ h1W h1H]
    exact block_not_alive W H W H (by omega)
  have f10 := ea0 1 (by norm_num) (by norm_num)
  have f20 := ea0 2 (by norm_num) (by norm_num)
  have f30 := ea0 3 (by norm_num) (by norm_num)
  have f40 := ea0 4 (by norm_num) (by norm_num)
  have f50 := ea0 5 (by norm_num) (by norm_num)
  have f01 := e0b 1 (by norm_num) (by norm_num)
  have f02 := e0b 2 (by norm_num) (by norm_num)
  have f03 := e0b 3 (by norm_num) (by norm_num)
  have f04 := e0b 4 (by norm_num) (by norm_num)
  have f05 := e0b 5 (by norm_num) (by norm_num)
  have f11 := ef 1 1 (by norm_num) (by norm_num) (by norm_num) (by norm_num) (by decide)
  have f21 := ef 2 1 (by norm_num) (by norm_num) (by norm_num) (by norm_num) (by decide)
  have f31 := ef 3 1 (by norm_num) (by norm_num) (by norm_num) (by norm_num) (by decide)
  have f41 := ef 4 1 (by norm_num) (by norm_num) (by norm_num) (by norm_num) (by decide)
  have f51 := ef 5 1 (by norm_num) (by norm_num) (by norm_num) (by norm_num) (by decide)
  have f12 := ef 1 2 (by norm_num) (by norm_num) (by norm_num) (by norm_num) (by decide)
  have f42 := ef 4 2 (by norm_num) (by norm_num) (by norm_num) (by norm_num) (by decide)
  have f52 := ef 5 2 (by norm_num) (by norm_num) (by norm_num) (by norm_num) (by decide)
  have f13 := ef 1 3 (by norm_num) (by norm_num) (by norm_num) (by norm_num) (by decide)
  have f43 := ef 4 3 (by norm_num) (by norm_num) (by norm_num) (by norm_num) (by decide)
  have f53 := ef 5 3 (by norm_num) (by norm_num) (by norm_num) (by norm_num) (by decide)
  have f14 := ef 1 4 (by norm_num) (by norm_num) (by norm_num) (by norm_num) (by decide)
  have f24 := ef 2 4 (by norm_num) (by norm_num) (by norm_num) (by norm_num) (by decide)
  have f34 := ef 3 4 (by norm_num) (by norm_num) (by norm_num) (by norm_num) (by decide)
  have f44 := ef 4 4 (by norm_num) (by norm_num) (by norm_num) (by norm_num) (by decide)
  have f54 := ef 5 4 (by norm_num) (by norm_num) (by norm_num) (by norm_num) (by decide)
  have f15 := ef 1 5 (by norm_num) (by norm_num) (by norm_num) (by norm_num) (by decide)
  have f25 := ef 2 5 (by norm_num) (by norm_num) (by norm_num) (by norm_num) (by decide)
  have f35 := ef 3 5 (by norm_num) (by norm_num) (by norm_num) (by norm_num) (by decide)
  have f45 := ef 4 5 (by norm_num) (by norm_num) (by norm_num) (by norm_num) (by decide)
  have f55 := ef 5 5 (by norm_num) (by norm_num) (by norm_num) (by norm_num) (by decide)
  have t22 := et 2 2 (Or.inl rfl) (Or.inl rfl)
  have t23 := et 2 3 (Or.inl rfl) (Or.inr rfl)
  have t32 := et 3 2 (Or.inr rfl) (Or.inl rfl)
  have t33 := et 3 3 (Or.inr rfl) (Or.inr rfl)
  have c22 : (World.mk W H blockCells).live_neighbors (Position.new 2 2) = 3 := by
    unfold World.live_neighbors World.neighbors
    rw [List.countP_map]
    norm_num [Position.new_x, Position.new_y, List.countP_cons, List.countP_nil,
      Function.comp, f11, f21, f31, f12, t32, f13, t23, t33]
  have c23 : (World.mk W H blockCells).live_neighbors (Position.new 2 3) = 3 := by
    unfold World.live_neighbors World.neighbors
    rw [List.countP_map]
    norm_num [Position.new_x, Position.new_y, List.countP_cons, List.countP_nil,
      Function.comp, f12, t22, t32, f13, t33, f14, f24, f34]
  have c32 : (World.mk W H blockCells).live_neighbors (Position.new 3 2) = 3 := by
    unfold World.live_neighbors World.neighbors
    rw [List.countP_map]
    norm_num [Position.new_x, Position.new_y, List.countP_cons, List.countP_nil,
      Function.comp, f21, f31, f41, t22, f42, t23, t33, f43]
  have c33 : (World.mk W H blockCells).live_neighbors (Position.new 3 3) = 3 := by
    unfold World.live_neighbors World.neighbors
    rw [List.countP_map]
    norm_num [Position.new_x, Position.new_y, List.countP_cons, List.countP_nil,
      Function.comp, t22, t32, f42, t23, f43, f24, f34, f44]
  have c11 : (World.mk W H blockCells).live_neighbors (Position.new 1 1) = 1 := by
    unfold World.live_neighbors World.neighbors
    rw [List.countP_map]
    norm_num [Position.new_x, Position.new_y, List.countP_cons, List.countP_nil,
      Function.comp, f00, f10, f20, f01, f21, f02, f12, t22]
  have c21 : (World.mk W H blockCells).live_neighbors (Position.new 2 1) = 2 := by
    unfold World.live_neighbors World.neighbors
    rw [List.countP_map]
    norm_num [Position.new_x, Position.new_y, List.countP_cons, List.countP_nil,
      Function.comp, f10, f20, f30, f11, f31, f12, t22, t32]
  have c31 : (World.mk W H blockCells).live_neighbors (Position.new 3 1) = 2 := by
    unfold World.live_neighbors World.neighbors
    rw [List.countP_map]
    norm_num [Position.new_x, Position.new_y, List.countP_cons, List.countP_nil,
      Function.comp, f20, f30, f40, f21, f41, t22, t32, f42]
  have c41 : (World.mk W H blockCells).live_neighbors (Position.new 4 1) = 1 := by
    unfold World.live_neighbors World.neighbors
    rw [List.countP_map]
    norm_num [Position.new_x, Position.new_y, List.countP_cons, List.countP_nil,
      Function.comp, f30, f40, f50, f31, f51, t32, f42, f52]
  have c12 : (World.mk W H blockCells).live_neighbors (Position.new 1 2) = 2 := by
    unfold World.live_neighbors World.neighbors
    rw [List.countP_map]
    norm_num [Position.new_x, Position.new_y, List.countP_cons, List.countP_nil,
      Function.comp, f01, f11, f21, f02, t22, f03, f13, t23]
  have c42 : (World.mk W H blockCells).live_neighbors (Position.new 4 2) = 2 := by
    unfold World.live_neighbors World.neighbors
    rw [List.countP_map]
    norm_num [Position.new_x, Position.new_y, List.countP_cons, List.countP_nil,
      Function.comp, f31, f41, f51, t32, f52, t33, f43, f53]
  have c13 : (World.mk W H blockCells).live_neighbors (Position.new 1 3) = 2 := by
    unfold World.live_neighbors World.neighbors
    rw [List.countP_map]
    norm_num [Position.new_x, Position.new_y, List.countP_cons, List.countP_nil,
      Function.comp, f02, f12, t22, f03, t23, f04, f14, f24]
  have c43 : (World.mk W H blockCells).live_neighbors (Position.new 4 3) = 2 := by
    unfold World.live_neighbors World.neighbors
    rw [List.countP_map]
    norm_num [Position.new_x, Position.new_y, List.countP_cons, List.countP_nil,
      Function.comp, t32, f42, f52, t33, f53, f34, f44, f54]
  have c14 : (World.mk W H blockCells).live_neighbors (Position.new 1 4) = 1 := by
    unfold World.live_neighbors World.neighbors
    rw [List.countP_map]
    norm_num [Position.new_x, Position.new_y, List.countP_cons, List.countP_nil,
      Function.comp, f03, f13, t23, f04, f24, f05, f15, f25]
  have c24 : (World.mk W H blockCells).live_neighbors (Position.new 2 4) = 2 := by
    unfold World.live_neighbors World.neighbors
    rw [List.countP_map]
    norm_num [Position.new_x, Position.new_y, List.countP_cons, List.countP_nil,
      Function.comp, f13, t23, t33, f14, f34, f15, f25, f35]
  have c34 : (World.mk W H blockCells).live_neighbors (Position.new 3 4) = 2 := by
    unfold World.live_neighbors World.neighbors
    rw [List.countP_map]
    norm_num [Position.new_x, Position.new_y, List.countP_cons, List.countP_nil,
      Function.comp, t23, t33, f43, f24, f44, f25, f35, f45]
  have c44 : (World.mk W H blockCells).live_neighbors (Position.new 4 4) = 1 := by
    unfold World.live_neighbors World.neighbors
    rw [List.countP_map]
    norm_num [Position.new_x, Position.new_y, List.countP_cons, List.countP_nil,
      Function.comp, t33, f43, f53, f34, f54, f35, f45, f55]
  have nb : ∀ a b : Int, 2 ≤ a → a ≤ 4 → 2 ≤ b → b ≤ 4 →
      (World.mk W H blockCells).neighbors (Position.new a b) =
        [Position.new (a - 1) (b - 1), Position.new a (b - 1),
         Position.new (a + 1) (b - 1), Position.new (a - 1) b,
         Position.new (a + 1) b, Position.new (a - 1) (b + 1),
         Position.new a (b + 1), Position.new (a + 1) (b + 1)] := by
    intro a b h1 h2 h3 h4
    unfold World.neighbors
    simp only [Position.new_x, Position.new_y, List.map]
    rw [wrap_id_ab _ (a - 1) (b - 1) (by omega) (hW' _ (by omega)) (by omega)
        (hH' _ (by omega)),
      wrap_id_ab _ a (b - 1) (by omega) (hW' _ (by omega)) (by omega) (hH' _ (by omega)),
      wrap_id_ab _ (a + 1) (b - 1) (by omega) (hW' _ (by omega)) (by omega)
        (hH' _ (by omega)),
      wrap_id_ab _ (a - 1) b (by omega) (hW' _ (by omega)) (by omega) (hH' _ (by omega)),
      wrap_id_ab _ (a + 1) b (by omega) (hW' _ (by omega)) (by omega) (hH' _ (by omega)),
      wrap_id_ab _ (a - 1) (b + 1) (by omega) (hW' _ (by omega)) (by omega)
        (hH' _ (by omega)),
      wrap_id_ab _ a (b + 1) (by omega) (hW' _ (by omega)) (by omega) (hH' _ (by omega)),
      wrap_id_ab _ (a + 1) (b + 1) (by omega) (hW' _ (by omega)) (by omega)
        (hH' _ (by omega))]
  have n22 := nb 2 2 (by norm_num) (by norm_num) (by norm_num) (by norm_num)
  have n23 := nb 2 3 (by norm_num) (by norm_num) (by norm_num) (by norm_num)
  have n32 := nb 3 2 (by norm_num) (by norm_num) (by norm_num) (by norm_num)
  have n33 := nb 3 3 (by norm_num) (by norm_num) (by norm_num) (by norm_num)
  have mem_block : ∀ r ∈ blockCells, r ∈ (World.mk W H blockCells).alive :=
    fun r hr => hr
  have hsurv : (World.mk W H blockCells).survivors = blockCells := by
    unfold World.survivors
    show List.filter _ blockCells = blockCells
    rw [List.filter_eq_self]
    intro a ha
    simp only [blockCells, List.mem_cons, List.not_mem_nil, or_false] at ha
    rcases ha with rfl | rfl | rfl | rfl <;> simp [c22, c23, c32, c33]
  have hbir : (World.mk W H blockCells).births = [] := by
    unfold World.births
    rw [List.filter_eq_nil_iff]
    intro q hq
    obtain ⟨⟨p, hp, hn⟩, he⟩ := (mem_potential_births _ q).mp hq
    have hq' : q ∉ (World.mk W H blockCells).alive := (is_empty_iff _ _).mp he
    have hp2 : p ∈ blockCells := hp
    simp only [blockCells, List.mem_cons, List.not_mem_nil, or_false] at hp2
    rcases hp2 with rfl | rfl | rfl | rfl
    · rw [n22] at hn
      norm_num [List.mem_cons] at hn
      rcases hn with rfl | rfl | rfl | rfl | rfl | rfl | rfl | rfl
      · simp [c11]
      · simp [c21]
      · simp [c31]
      · simp [c12]
      · exact absurd (mem_block _ (by decide)) hq'
      · simp [c13]
      · exact absurd (mem_block _ (by decide)) hq'
      · exact absurd (mem_block _ (by decide)) hq'
    · rw [n23] at hn
      norm_num [List.mem_cons] at hn
      rcases hn with rfl | rfl | rfl | rfl | rfl | rfl | rfl | rfl
      · simp [c12]
      · exact absurd (mem_block _ (by decide)) hq'
      · exact absurd (mem_block _ (by decide)) hq'
      · simp [c13]
      · exact absurd (mem_block _ (by decide)) hq'
      · simp [c14]
      · simp [c24]
      · simp [c34]
    · rw [n32] at hn
      norm_num [List.mem_cons] at hn
      rcases hn with rfl | rfl | rfl | rfl | rfl | rfl | rfl | rfl
      · simp [c21]
      · simp [c31]
      · simp [c41]
      · exact absurd (mem_block _ (by decide)) hq'
      · simp [c42]
      · exact absurd (mem_block _ (by decide)) hq'
      · exact absurd (mem_block _ (by decide)) hq'
      · simp [c43]
    · rw [n33] at hn
      norm_num [List.mem_cons] at hn
      rcases hn with rfl | rfl | rfl | rfl | rfl | rfl | rfl | rfl
      · exact absurd (mem_block _ (by decide)) hq'
      · exact absurd (mem_block _ (by decide)) hq'
      · simp [c42]
      · exact absurd (mem_block _ (by decide)) hq'
      · simp [c43]
      · simp [c24]
      · simp [c34]
      · simp [c44]
  unfold World.next_generation
  rw [hsurv, hbir]
  rfl

/-- Claim C8: a world whose live set is the 2×2 block {(2,2),(2,3),(3,2),(3,3)}
on any grid of width and height at least 5 (large enough to avoid
self-wrapping interference) is a fixed point of `next_generation`: after any
number of iterated generations the live set is exactly the block. -/
theorem block_still_life (W H : Int) (hw : 5 ≤ W) (hh : 5 ≤ H) (n : Nat) :
    (World.next_generation)^[n] (World.mk W H blockCells) = World.mk W H blockCells
    ∧ ((World.next_generation)^[n] (World.mk W H blockCells)).alive = blockCells := by
  have main : ∀ m : Nat,
      (World.next_generation)^[m] (World.mk W H blockCells) =
        World.mk W H blockCells := by
    intro m
    induction m with
    | zero => rfl
    | succ k ih =>
      rw [Function.iterate_succ_apply', ih]
      exact block_next_generation W H hw hh
  exact ⟨main n, by rw [main n]⟩

/-- Witness for C8: three generations on the 5×5 block world leave exactly
the block alive. -/
theorem block_still_life_witness :
    ((World.next_generation)^[3] (World.mk 5 5 blockCells)).alive = blockCells :=
  (block_still_life 5 5 (by norm_num) (by norm_num) 3).2
